import Mathlib

/-!
# Feishu deployment notifications of syncd

A shallow embedding of `router/deploy/feishu.go`: the signer `GenSign`, the
composer `deployMessageConf.NewMessage` and the dispatcher `sendToFeishu`,
followed by theorems about them.

Conventions of the embedding.
* A Go `string` is a Lean `String`; `[]byte(s)` is its UTF-8 encoding, a list of
  bytes held as natural numbers below 256 (byte strings that are not valid UTF-8
  are outside the model).
* A Go `int` / `int64` is an `Int`; the functions modelled here perform no
  arithmetic on them, only decimal rendering.
* A Go `error` is `Option GoError`, `none` standing for `nil`.
* A run-time panic is the `Except.error` of `Except Panic`.
* A slice is a `List`; every indexed write is bounds-checked as Go does.
* The wall clock is an explicit stream of readings.
-/

namespace Feishu

/-! ## Strings, integers, errors -/

/-- A Go `error` value that is not nil, identified by its message. -/
structure GoError where
  msg : String
deriving DecidableEq

/-- Decimal rendering of a Go integer, as done by `%d`, `%v`, `strconv.Itoa`
and `strconv.FormatInt(_, 10)`: a minus sign for negative numbers, then the digits. -/
def formatInt : Int → String
  | Int.ofNat m => Nat.repr m
  | Int.negSucc m => "-" ++ Nat.repr (m + 1)

/-- The conversion `[]byte(s)`: the UTF-8 bytes of a string. -/
def stringBytes (s : String) : List Nat :=
  (s.data.flatMap String.utf8EncodeChar).map UInt8.toNat

/-! ## SHA-256 (crypto/sha256), over 32-bit words held as natural numbers -/

/-- Addition of 32-bit words (Go uint32 arithmetic wraps). -/
def add32 (a b : Nat) : Nat := (a + b) % 2 ^ 32

/-- Rotate a 32-bit word right by `n` bits (`bits.RotateLeft32(x, -n)`). -/
def rotr32 (x n : Nat) : Nat := ((x >>> n) ||| (x <<< (32 - n))) % 2 ^ 32

/-- Bitwise complement of a 32-bit word. -/
def not32 (x : Nat) : Nat := x ^^^ 0xffffffff

/-- Round constants of SHA-256 (FIPS 180-4 section 4.2.2). -/
def sha256K : List Nat :=
  [0x428a2f98, 0x71374491, 0xb5c0fbcf, 0xe9b5dba5, 0x3956c25b, 0x59f111f1, 0x923f82a4, 0xab1c5ed5,
   0xd807aa98, 0x12835b01, 0x243185be, 0x550c7dc3, 0x72be5d74, 0x80deb1fe, 0x9bdc06a7, 0xc19bf174,
   0xe49b69c1, 0xefbe4786, 0x0fc19dc6, 0x240ca1cc, 0x2de92c6f, 0x4a7484aa, 0x5cb0a9dc, 0x76f988da,
   0x983e5152, 0xa831c66d, 0xb00327c8, 0xbf597fc7, 0xc6e00bf3, 0xd5a79147, 0x06ca6351, 0x14292967,
   0x27b70a85, 0x2e1b2138, 0x4d2c6dfc, 0x53380d13, 0x650a7354, 0x766a0abb, 0x81c2c92e, 0x92722c85,
   0xa2bfe8a1, 0xa81a664b, 0xc24b8b70, 0xc76c51a3, 0xd192e819, 0xd6990624, 0xf40e3585, 0x106aa070,
   0x19a4c116, 0x1e376c08, 0x2748774c, 0x34b0bcb5, 0x391c0cb3, 0x4ed8aa4a, 0x5b9cca4f, 0x682e6ff3,
   0x748f82ee, 0x78a5636f, 0x84c87814, 0x8cc70208, 0x90befffa, 0xa4506ceb, 0xbef9a3f7, 0xc67178f2]

/-- Initial hash value of SHA-256 (FIPS 180-4 section 5.3.3). -/
def sha256Init : List Nat :=
  [0x6a09e667, 0xbb67ae85, 0x3c6ef372, 0xa54ff53a, 0x510e527f, 0x9b05688c, 0x1f83d9ab, 0x5be0cd19]

/-- Big-endian bytes of a number, `n` bytes wide. -/
def beBytes : Nat → Nat → List Nat
  | 0, _ => []
  | n + 1, x => (x >>> (8 * n)) % 256 :: beBytes n x

/-- Big-endian 32-bit words of a byte string whose length is a multiple of 4. -/
def beWords : Nat → List Nat → List Nat
  | 0, _ => []
  | n + 1, bs =>
    (bs.getD 0 0 <<< 24 ||| bs.getD 1 0 <<< 16 ||| bs.getD 2 0 <<< 8 ||| bs.getD 3 0)
      :: beWords n (bs.drop 4)

/-- Padding of SHA-256: a 0x80 byte, zero bytes up to 56 mod 64, then the bit length on 8 bytes. -/
def sha256Pad (msg : List Nat) : List Nat :=
  msg ++ 0x80 :: List.replicate ((119 - msg.length % 64) % 64) 0 ++ beBytes 8 (8 * msg.length)

/-- Message schedule, most recent word first: `rev` holds W[t-1], W[t-2], ... -/
def sha256Schedule : Nat → List Nat → List Nat
  | 0, rev => rev
  | n + 1, rev =>
    let w2 := rev.getD 1 0
    let w7 := rev.getD 6 0
    let w15 := rev.getD 14 0
    let w16 := rev.getD 15 0
    let s0 := rotr32 w15 7 ^^^ rotr32 w15 18 ^^^ (w15 >>> 3)
    let s1 := rotr32 w2 17 ^^^ rotr32 w2 19 ^^^ (w2 >>> 10)
    sha256Schedule n (add32 (add32 (add32 s1 w7) s0) w16 :: rev)

/-- Working variables a..h of one SHA-256 block. -/
structure Sha256Vars where
  a : Nat
  b : Nat
  c : Nat
  d : Nat
  e : Nat
  f : Nat
  g : Nat
  h : Nat
deriving DecidableEq

/-- One round of the SHA-256 compression function. -/
def sha256Round (v : Sha256Vars) (k w : Nat) : Sha256Vars :=
  let t1 := add32 (add32 (add32 (add32 v.h
      (rotr32 v.e 6 ^^^ rotr32 v.e 11 ^^^ rotr32 v.e 25))
      ((v.e &&& v.f) ^^^ (not32 v.e &&& v.g))) k) w
  let t2 := add32 (rotr32 v.a 2 ^^^ rotr32 v.a 13 ^^^ rotr32 v.a 22)
      ((v.a &&& v.b) ^^^ (v.a &&& v.c) ^^^ (v.b &&& v.c))
  { a := add32 t1 t2, b := v.a, c := v.b, d := v.c, e := add32 v.d t1, f := v.e, g := v.f, h := v.g }

/-- The 64 rounds over the round constants and the schedule. -/
def sha256Rounds : Sha256Vars → List Nat → List Nat → Sha256Vars
  | v, k :: ks, w :: ws => sha256Rounds (sha256Round v k w) ks ws
  | v, _, _ => v

/-- Compression of one 64-byte block into the chaining value. -/
def sha256Block (hs : List Nat) (block : List Nat) : List Nat :=
  let ws := (sha256Schedule 48 (beWords 16 block).reverse).reverse
  let v0 : Sha256Vars :=
    { a := hs.getD 0 0, b := hs.getD 1 0, c := hs.getD 2 0, d := hs.getD 3 0,
      e := hs.getD 4 0, f := hs.getD 5 0, g := hs.getD 6 0, h := hs.getD 7 0 }
  let v := sha256Rounds v0 sha256K ws
  List.zipWith add32 hs [v.a, v.b, v.c, v.d, v.e, v.f, v.g, v.h]

/-- Fold of the compression function over `n` consecutive 64-byte blocks. -/
def sha256Blocks : Nat → List Nat → List Nat → List Nat
  | 0, hs, _ => hs
  | n + 1, hs, bs => sha256Blocks n (sha256Block hs (bs.take 64)) (bs.drop 64)

/-- SHA-256 of a byte string (`sha256.Sum256`), 32 bytes. -/
def sha256 (msg : List Nat) : List Nat :=
  let p := sha256Pad msg
  (sha256Blocks (p.length / 64) sha256Init p).flatMap (beBytes 4)

/-! ## HMAC (crypto/hmac) -/

/-- State of a `sha256.digest`: the bytes written since the last reset. The
digest's `Sum` hashes them, `Write` appends and never fails. -/
abbrev Sha256Digest := List Nat

/-- Block size of SHA-256 in bytes (`sha256.BlockSize`). -/
def sha256BlockSize : Nat := 64

/-- The `copy(dst, key)` of a key into a zeroed block of `n` bytes. -/
def copyInto (n : Nat) (key : List Nat) : List Nat :=
  key.take n ++ List.replicate (n - key.length) 0

/-- The object `hmac.New` returns: both pads and both digests. -/
structure Hmac where
  opad : List Nat
  ipad : List Nat
  outer : Sha256Digest
  inner : Sha256Digest
deriving DecidableEq

/-- Function `hmac.New(sha256.New, key)`: a key longer than the block is hashed
through the outer digest, the key is copied into both pads, the pads are
xored with 0x36 and 0x5c, and the inner pad is written to the inner digest. -/
def hmacNew (key : List Nat) : Hmac :=
  let outer : Sha256Digest := if key.length > sha256BlockSize then key else []
  let key := if key.length > sha256BlockSize then sha256 outer else key
  let ipad := (copyInto sha256BlockSize key).map (· ^^^ 0x36)
  let opad := (copyInto sha256BlockSize key).map (· ^^^ 0x5c)
  { opad := opad, ipad := ipad, outer := outer, inner := ipad }

/-- Method `(*hmac).Write`: the bytes go to the inner digest; the count written
and a nil error come back. -/
def Hmac.write (h : Hmac) (p : List Nat) : Hmac × Nat × Option GoError :=
  ({ h with inner := h.inner ++ p }, p.length, none)

/-- Method `(*hmac).Sum(nil)`: the inner digest is summed, the outer digest is
reset, fed the outer pad and the inner sum, and summed. -/
def Hmac.sum (h : Hmac) : List Nat :=
  let inSum := sha256 h.inner
  let outer : Sha256Digest := []
  let outer := outer ++ h.opad
  let outer := outer ++ inSum
  sha256 outer

/-! ## Base64 (encoding/base64, StdEncoding) -/

/-- The alphabet of the standard encoding. -/
def base64Alphabet : List Char :=
  "ABCDEFGHIJKLMNOPQRSTUVWXYZabcdefghijklmnopqrstuvwxyz0123456789+/".data

/-- The character of a 6-bit value in the standard alphabet. -/
def base64Char (v : Nat) : Char := base64Alphabet.getD v 'A'

/-- Standard base64 of a byte string, with `=` padding. -/
def base64Chars : List Nat → List Char
  | [] => []
  | [a] => [base64Char (a >>> 2), base64Char ((a &&& 3) <<< 4), '=', '=']
  | [a, b] =>
    [base64Char (a >>> 2), base64Char ((a &&& 3) <<< 4 ||| b >>> 4),
     base64Char ((b &&& 15) <<< 2), '=']
  | a :: b :: c :: rest =>
    base64Char (a >>> 2) :: base64Char ((a &&& 3) <<< 4 ||| b >>> 4) ::
      base64Char ((b &&& 15) <<< 2 ||| c >>> 6) :: base64Char (c &&& 63) :: base64Chars rest

/-- Function `base64.StdEncoding.EncodeToString`. -/
def base64StdEncodeToString (bs : List Nat) : String := String.mk (base64Chars bs)

/-! ## The signer -/

/-- The key string `GenSign` builds: the timestamp in decimal, a newline, the secret. -/
def stringToSign (secret : String) (timestamp : Int) : String :=
  formatInt timestamp ++ "\n" ++ secret

/-- Function `GenSign` of feishu.go: an HMAC-SHA256 keyed by `stringToSign`, a
write of the nil slice `data`, and the base64 of the sum. A write that reports
an error returns the empty signature and that error. -/
def GenSign (secret : String) (timestamp : Int) : String × Option GoError :=
  let stringToSign := formatInt timestamp ++ "\n" ++ secret
  let data : List Nat := []
  let h := hmacNew (stringBytes stringToSign)
  match h.write data with
  | (_, _, some err) => ("", some err)
  | (h, _, none) =>
    let signature := base64StdEncodeToString h.sum
    (signature, none)

/-! ## Data model -/

/-- The event `deployMessage` handed to the notifier. -/
structure deployMessage where
  ApplyId : Int
  Mode : Int
  Status : Int
  Title : String
deriving DecidableEq

/-- The fields of `deploy.Apply` that feishu.go reads. -/
structure Apply where
  ID : Int
  ProjectId : Int
  UserId : Int
  BranchName : String
  CommitVersion : String
deriving DecidableEq

/-- The fields of `project.Project` that feishu.go reads. -/
structure Project where
  ID : Int
  Name : String
  OnlineCluster : List Int
deriving DecidableEq

/-- The field of a server group that feishu.go reads. -/
structure ServerGroup where
  Name : String
deriving DecidableEq

/-- The field of `user.User` that feishu.go reads. -/
structure User where
  Username : String
deriving DecidableEq

/-- The part of the process-wide `syncd.App` that feishu.go reads:
`App.AppHost`, `App.Feishu.Url` and `App.Feishu.Sign`. -/
structure AppConfig where
  AppHost : String
  FeishuUrl : String
  FeishuSign : String
deriving DecidableEq

/-- One cell of a row, the struct `content`. -/
structure content where
  Tag : String
  Text : String
  Href : String
deriving DecidableEq

/-- The zero value of `content`, what `make([]content, n)` fills a slice with. -/
def content.zero : content := { Tag := "", Text := "", Href := "" }

/-- The payload `FeiShuReq`; `Title` and `Content` are the fields of
`Content.Post.ZhCn`. -/
structure FeiShuReq where
  MsgType : String
  Title : String
  Content : List (List content)
  Timestamp : String
  Sign : String
deriving DecidableEq

/-- The zero value of `FeiShuReq`, what `var req FeiShuReq` declares. -/
def FeiShuReq.zero : FeiShuReq :=
  { MsgType := "", Title := "", Content := [], Timestamp := "", Sign := "" }

/-- The notification context `deployMessageConf`; its three pointers are not nil. -/
structure deployMessageConf where
  msg : deployMessage
  apply : Apply
  project : Project
  serverNums : Int
  userName : String
  groupName : String
  commitMsg : String
deriving DecidableEq

/-- The map `statusMap`, as its two entries. -/
def statusMap : List (Int × String) :=
  [(1, "部署成功"), (0, "部署失败")]

/-- Indexing of a Go map of strings: the value stored under the key, or the
zero value `""` when the key is absent. -/
def mapIndex (m : List (Int × String)) (k : Int) : String :=
  (m.lookup k).getD ""

/-- Function `applyLink` of feishu.go. -/
def applyLink (app : AppConfig) (applyId : Int) : String :=
  app.AppHost ++ "/deploy/deploy?id=" ++ formatInt applyId

/-! ## The clock -/

/-- The wall clock: `readings k` is what the read number `k` of `time.Now().Unix()`
returns, `reads` how many reads have been made. -/
structure Clock where
  readings : Nat → Int
  reads : Nat

/-- One read of `time.Now().Unix()`. -/
def Clock.unixNow (c : Clock) : Int × Clock :=
  (c.readings c.reads, { c with reads := c.reads + 1 })

/-! ## Slices of rows -/

/-- A run-time panic of Go. -/
inductive Panic where
  | indexOutOfRange (index : Nat) (length : Nat)
deriving DecidableEq

/-- The builtin `make([]content, n)`. -/
def makeRow (n : Nat) : List content := List.replicate n content.zero

/-- The builtin `make([][]content, n)`: `n` nil rows. -/
def makeRows (n : Nat) : List (List content) := List.replicate n []

/-- The assignment `res[i] = row`. -/
def setRow (res : List (List content)) (i : Nat) (row : List content) :
    Except Panic (List (List content)) :=
  if i < res.length then .ok (res.set i row) else .error (.indexOutOfRange i res.length)

/-- The assignment `res[i][j] = c`. -/
def setCell (res : List (List content)) (i j : Nat) (c : content) :
    Except Panic (List (List content)) :=
  match res.get? i with
  | none => .error (.indexOutOfRange i res.length)
  | some row =>
    if j < row.length then .ok (res.set i (row.set j c))
    else .error (.indexOutOfRange j row.length)

/-- The assignment `res[i] = append(res[i], c)`. -/
def appendCell (res : List (List content)) (i : Nat) (c : content) :
    Except Panic (List (List content)) :=
  match res.get? i with
  | none => .error (.indexOutOfRange i res.length)
  | some row => .ok (res.set i (row ++ [c]))

/-! ## The composer -/

/-- Lines 183 to 190 of `NewMessage`: `res := make([][]content, 7)` and the loop
`for i := 0; i < 7; i++` that allocates two cells for `i == 5` and one cell for
every other index. -/
def allocRows : Except Panic (List (List content)) :=
  (List.range 7).foldlM
    (fun res i => if i == 5 then setRow res i (makeRow 2) else setRow res i (makeRow 1))
    (makeRows 7)

/-- Lines 176 to 181 of `NewMessage`: the message type, the timestamp from one
clock read, the signature from a second clock read (the error of `GenSign` is
discarded), the title from `statusMap`, and an empty content. -/
def newMessageHeader (app : AppConfig) (conf : deployMessageConf) (clock : Clock) :
    FeiShuReq × Clock :=
  let req := FeiShuReq.zero
  let req := { req with MsgType := "post" }
  let (now1, clock) := clock.unixNow
  let req := { req with Timestamp := formatInt now1 }
  let (now2, clock) := clock.unixNow
  let req := { req with Sign := (GenSign app.FeishuSign now2).1 }
  let req := { req with Title := mapIndex statusMap conf.msg.Status }
  let req := { req with Content := [] }
  (req, clock)

/-- Lines 183 to 242 of `NewMessage`: the slice `res` after every write, or the
panic of the first write that is out of range. -/
def newMessageRows (app : AppConfig) (conf : deployMessageConf) :
    Except Panic (List (List content)) := do
  let res ← allocRows
  let res ← setRow res 0 (makeRow 1)
  let res ← setCell res 0 0 { Tag := "text", Text := "服务名称: " ++ conf.project.Name, Href := "" }
  let commitVersion :=
    if conf.apply.CommitVersion.utf8ByteSize > 0 then conf.apply.CommitVersion
    else conf.apply.BranchName
  let res ← setCell res 1 0 { Tag := "text", Text := "服务版本: " ++ commitVersion, Href := "" }
  let res ← setCell res 2 0 { Tag := "text", Text := "提交信息：" ++ conf.commitMsg, Href := "" }
  let res ← setCell res 3 0
    { Tag := "text", Text := "实例数量: " ++ formatInt conf.serverNums, Href := "" }
  let res ← setCell res 4 0 { Tag := "text", Text := "运行环境: " ++ conf.groupName, Href := "" }
  let res ← setCell res 4 1
    { Tag := "a", Text := "部署链接", Href := applyLink app conf.apply.ID }
  let res ← setCell res 5 0 { Tag := "text", Text := "部署详情: ", Href := "" }
  let res ← setCell res 5 1
    { Tag := "a", Text := "部署链接", Href := applyLink app conf.apply.ID }
  let res ← setCell res 6 0 { Tag := "text", Text := "发布人: " ++ conf.userName, Href := "" }
  let res ←
    if conf.apply.CommitVersion.utf8ByteSize > 0 then
      appendCell res 1 { Tag := "text", Text := "commitVersion:" ++ conf.apply.CommitVersion, Href := "" }
    else pure res
  return res

/-- Method `(*deployMessageConf).NewMessage`: the header, then the rows; when no
write panics the payload comes back with a nil error and the clock as read. -/
def deployMessageConf.NewMessage (app : AppConfig) (conf : deployMessageConf) (clock : Clock) :
    Except Panic ((FeiShuReq × Option GoError) × Clock) :=
  let (req, clock) := newMessageHeader app conf clock
  match newMessageRows app conf with
  | .error p => .error p
  | .ok res =>
    let req := { req with Content := res }
    .ok ((req, none), clock)

/-! ## The dispatcher -/

/-- A server as `server.ServerGetListByGroupIds` lists it; only the length of
the list is read. -/
structure Server where
  ID : Int
deriving DecidableEq

/-- An outbound HTTP request: method, URL, headers and body. -/
structure HttpRequest where
  method : String
  url : String
  header : List (String × String)
  body : List Nat
deriving DecidableEq

/-- The collaborators of `sendToFeishu`, each a function that returns or fails:
the five entity lookups (a `Detail` method fills the struct whose ID is given;
the group map is given as the entries in the order the `range` loop visits
them), the commit message, the configuration, the clock, the JSON encoder, the
error `http.NewRequest` reports for a URL, and the transport. -/
structure World where
  app : AppConfig
  applyDetail : Int → Except GoError Apply
  projectDetail : Int → Except GoError Project
  groupGetMapByIds : List Int → Except GoError (List (Int × ServerGroup))
  serverGetListByGroupIds : List Int → Except GoError (List Server)
  userDetail : Int → Except GoError User
  commitMsg : String
  clock : Clock
  jsonMarshal : FeiShuReq → Except GoError (List Nat)
  newRequestError : String → Option GoError
  clientDo : HttpRequest → Option GoError

/-- The five entity lookups of `sendToFeishu`. -/
inductive Lookup where
  | applyDetail
  | projectDetail
  | groupGetMapByIds
  | serverGetListByGroupIds
  | userDetail
deriving DecidableEq

/-- What `sendToFeishu` does that is visible outside it, in order: a lookup and
whether it failed, a line logged, the commit message fetched, the payload
built or the panic of building it, the payload serialised, the request
built, the request sent, the process ended by `log.Fatal`, the response body
closed. -/
inductive Event where
  | lookup (l : Lookup) (failed : Bool)
  | logPrint (err : GoError)
  | commitMsg
  | newMessage
  | panic (p : Panic)
  | jsonMarshal
  | httpNewRequest
  | httpDo (request : HttpRequest)
  | logFatal (err : GoError)
  | bodyClose
deriving DecidableEq

/-- Whether an event is an entity lookup. -/
def Event.isLookup : Event → Bool
  | .lookup _ _ => true
  | _ => false

/-- Whether an event builds or sends an outbound HTTP request. -/
def Event.isHttp : Event → Bool
  | .httpNewRequest => true
  | .httpDo _ => true
  | _ => false

/-- Whether an event belongs to building the payload: the commit message, the
call of `NewMessage`, the serialisation. -/
def Event.isBuild : Event → Bool
  | .commitMsg => true
  | .newMessage => true
  | .jsonMarshal => true
  | _ => false

/-- Function `sendToFeishu` of feishu.go, as the events it performs. Every
failed lookup returns at once (the group lookup logs its error first); the
payload is then built, serialised and posted; a transport error ends the
process through `log.Fatal`, otherwise the deferred close of the body runs. -/
def sendToFeishu (w : World) (msg : deployMessage) : List Event :=
  let url := w.app.FeishuUrl
  match w.applyDetail msg.ApplyId with
  | .error _ => [.lookup .applyDetail true]
  | .ok apply =>
  Event.lookup .applyDetail false ::
  match w.projectDetail apply.ProjectId with
  | .error _ => [.lookup .projectDetail true]
  | .ok project =>
  Event.lookup .projectDetail false ::
  match w.groupGetMapByIds project.OnlineCluster with
  | .error err => [.lookup .groupGetMapByIds true, .logPrint err]
  | .ok groupMap =>
  Event.lookup .groupGetMapByIds false ::
  let groupName := groupMap.map (fun kv => kv.2.Name)
  match w.serverGetListByGroupIds project.OnlineCluster with
  | .error _ => [.lookup .serverGetListByGroupIds true]
  | .ok serverList =>
  Event.lookup .serverGetListByGroupIds false ::
  match w.userDetail apply.UserId with
  | .error _ => [.lookup .userDetail true]
  | .ok u =>
  Event.lookup .userDetail false ::
  let conf : deployMessageConf :=
    { msg := msg, apply := apply, project := project,
      serverNums := (serverList.length : Int), userName := u.Username,
      groupName := String.intercalate "," groupName, commitMsg := w.commitMsg }
  Event.commitMsg :: Event.newMessage ::
  match deployMessageConf.NewMessage w.app conf w.clock with
  | .error p => [.panic p]
  | .ok ((_, some _), _) => []
  | .ok ((req, none), _) =>
  Event.jsonMarshal ::
  match w.jsonMarshal req with
  | .error _ => []
  | .ok reqBytes =>
  Event.httpNewRequest ::
  match w.newRequestError url with
  | some _ => []
  | none =>
  let request : HttpRequest := { method := "POST", url := url, header := [], body := reqBytes }
  let request := { request with header := [("Content-Type", "application/json")] }
  Event.httpDo request ::
  match w.clientDo request with
  | some err => [.logFatal err]
  | none => [.bodyClose]

/-! ## HMAC as RFC 2104 states it -/

/-- The key of RFC 2104 brought to the block size: hashed when longer than the
block, then padded with zero bytes. -/
def hmacBlockKey (key : List Nat) : List Nat :=
  let k := if key.length > 64 then sha256 key else key
  k ++ List.replicate (64 - k.length) 0

/-- HMAC-SHA256 as RFC 2104 defines it: `H((K ⊕ opad) ‖ H((K ⊕ ipad) ‖ text))`. -/
def hmacSha256 (key text : List Nat) : List Nat :=
  sha256 ((hmacBlockKey key).map (· ^^^ 0x5c) ++
    sha256 ((hmacBlockKey key).map (· ^^^ 0x36) ++ text))

/-! ## Concrete inputs -/

/-- The configuration of the end-to-end example of the specification. -/
def exampleApp : AppConfig :=
  { AppHost := "https://deploy.example", FeishuUrl := "https://open.feishu.example/hook",
    FeishuSign := "mysecret" }

/-- The context of the end-to-end example: apply 42 of project "checkout" on
branch "main" with no commit version, three servers, a successful deployment. -/
def exampleConf : deployMessageConf :=
  { msg := { ApplyId := 42, Mode := 0, Status := 1, Title := "" },
    apply := { ID := 42, ProjectId := 7, UserId := 3, BranchName := "main", CommitVersion := "" },
    project := { ID := 7, Name := "checkout", OnlineCluster := [1, 2] },
    serverNums := 3, userName := "alice", groupName := "prod,staging", commitMsg := "fix bug" }

/-- The example context with a commit version. -/
def exampleConfVersion : deployMessageConf :=
  { exampleConf with apply := { exampleConf.apply with CommitVersion := "9f2c1ab" } }

/-- The example context with a failed deployment. -/
def exampleConfFailure : deployMessageConf :=
  { exampleConf with msg := { exampleConf.msg with Status := 0 } }

/-- The example context with a status that is neither success nor failure. -/
def exampleConfUnknown : deployMessageConf :=
  { exampleConf with msg := { exampleConf.msg with Status := 2 } }

/-- A clock that stands at 1699999999 on its first read and advances one second
a read. -/
def tickingClock : Clock := { readings := fun k => 1699999999 + (k : Int), reads := 0 }

/-- A world whose apply lookup succeeds and whose project lookup fails. -/
def projectFailsWorld : World :=
  { app := exampleApp,
    applyDetail := fun id => .ok { exampleConf.apply with ID := id },
    projectDetail := fun _ => .error { msg := "record not found" },
    groupGetMapByIds := fun _ => .ok [(1, { Name := "prod" }), (2, { Name := "staging" })],
    serverGetListByGroupIds := fun _ => .ok [{ ID := 1 }, { ID := 2 }, { ID := 3 }],
    userDetail := fun _ => .ok { Username := "alice" },
    commitMsg := "fix bug",
    clock := tickingClock,
    jsonMarshal := fun _ => .ok [],
    newRequestError := fun _ => none,
    clientDo := fun _ => none }

/-! ## Reading a rendered integer back -/

/-- Value of a decimal digit character. -/
def digitValue (c : Char) : Nat := c.toNat - 48

/-- Value of a string of decimal digits, most significant first. -/
def decimalValue (cs : List Char) : Nat := cs.foldl (fun a c => 10 * a + digitValue c) 0

/-- Reading back of a rendered integer: a leading minus sign negates the value. -/
def parseInt : List Char → Int
  | '-' :: cs => -(decimalValue cs : Int)
  | cs => (decimalValue cs : Int)

/-! ## Lemmas on the hash and the HMAC object -/

theorem sha256Block_length (hs block : List Nat) (h : hs.length = 8) :
    (sha256Block hs block).length = 8 := by
  simp [sha256Block, h]

theorem sha256Blocks_length (n : Nat) (hs bs : List Nat) (h : hs.length = 8) :
    (sha256Blocks n hs bs).length = 8 := by
  induction n generalizing hs bs with
  | zero => simpa [sha256Blocks] using h
  | succ n ih =>
    rw [sha256Blocks]
    exact ih _ _ (sha256Block_length hs _ h)

theorem beBytes_length (n x : Nat) : (beBytes n x).length = n := by
  induction n with
  | zero => rfl
  | succ n ih => simp [beBytes, ih]

theorem flatMap_beBytes_length (ws : List Nat) :
    (ws.flatMap (beBytes 4)).length = 4 * ws.length := by
  induction ws with
  | nil => rfl
  | cons w ws ih =>
    simp only [List.flatMap_cons, List.length_append, beBytes_length, ih, List.length_cons]
    omega

/-- A SHA-256 sum has 32 bytes. -/
theorem sha256_length (msg : List Nat) : (sha256 msg).length = 32 := by
  unfold sha256
  simp only [flatMap_beBytes_length]
  rw [sha256Blocks_length _ _ _ (by rfl)]

/-- The pads of `hmac.New` are the block key of RFC 2104 under the two masks. -/
theorem copyInto_eq_hmacBlockKey (key : List Nat) :
    copyInto sha256BlockSize (if key.length > sha256BlockSize then sha256 key else key)
      = hmacBlockKey key := by
  unfold copyInto hmacBlockKey sha256BlockSize
  by_cases h : key.length > 64
  · simp only [h, if_true]
    rw [List.take_of_length_le (by rw [sha256_length]; omega)]
  · simp only [h, if_false]
    rw [List.take_of_length_le (by omega)]

/-- The HMAC object of Go, written once and summed, computes RFC 2104's HMAC. -/
theorem hmac_object_eq_hmacSha256 (key text : List Nat) :
    ((hmacNew key).write text).1.sum = hmacSha256 key text := by
  have h := copyInto_eq_hmacBlockKey key
  have hk : (if key.length > sha256BlockSize
      then sha256 (if key.length > sha256BlockSize then key else []) else key)
      = (if key.length > sha256BlockSize then sha256 key else key) := by
    split <;> rfl
  simp only [hmacNew, Hmac.write, Hmac.sum, hmacSha256, List.nil_append]
  rw [hk, h]

/-- The signature depends on the secret and the timestamp through the block key only. -/
theorem GenSign_eq_of_blockKey (secret : String) (timestamp : Int) :
    GenSign secret timestamp =
      (base64StdEncodeToString
        (sha256 ((hmacBlockKey (stringBytes (stringToSign secret timestamp))).map (· ^^^ 0x5c) ++
          sha256 ((hmacBlockKey (stringBytes (stringToSign secret timestamp))).map (· ^^^ 0x36)))),
       none) := by
  have h := hmac_object_eq_hmacSha256 (stringBytes (formatInt timestamp ++ "\n" ++ secret)) []
  simp only [GenSign, stringToSign]
  simp only [Hmac.write] at h ⊢
  rw [h]
  simp [hmacSha256]

/-! ## Lemmas on the composer -/

/-- The write `res[4][1]` of line 218 is out of range for every context: the
allocation loop gave row 4 one cell. -/
theorem newMessageRows_error (app : AppConfig) (conf : deployMessageConf) :
    newMessageRows app conf = .error (.indexOutOfRange 1 1) := rfl

theorem NewMessage_error (app : AppConfig) (conf : deployMessageConf) (clock : Clock) :
    deployMessageConf.NewMessage app conf clock = .error (.indexOutOfRange 1 1) := rfl

/-- The title the header assigns is the entry of `statusMap`. -/
theorem newMessageHeader_title (app : AppConfig) (conf : deployMessageConf) (clock : Clock) :
    (newMessageHeader app conf clock).1.Title = mapIndex statusMap conf.msg.Status := rfl

/-- The timestamp sent is the first clock reading, the signature is over the second. -/
theorem newMessageHeader_clock (app : AppConfig) (conf : deployMessageConf) (clock : Clock) :
    (newMessageHeader app conf clock).1.Timestamp = formatInt (clock.readings clock.reads) ∧
    (newMessageHeader app conf clock).1.Sign =
      (GenSign app.FeishuSign (clock.readings (clock.reads + 1))).1 := ⟨rfl, rfl⟩

/-! ## Lemmas on the decimal rendering and the key string -/

theorem digitChar_isDigit (d : Nat) (h : d < 10) :
    (Nat.digitChar d).isDigit = true ∧ digitValue (Nat.digitChar d) = d := by
  interval_cases d <;> decide

theorem decimalValue_append_singleton (cs : List Char) (c : Char) :
    decimalValue (cs ++ [c]) = 10 * decimalValue cs + digitValue c := by
  simp [decimalValue, List.foldl_append]

/-- The digits `toDigitsCore` puts in front of its accumulator are decimal digits
whose value is the number rendered. -/
theorem toDigitsCore_spec (fuel n : Nat) (ds : List Char) (h : n < fuel) :
    ∃ pre, Nat.toDigitsCore 10 fuel n ds = pre ++ ds ∧ pre ≠ [] ∧
      (∀ c ∈ pre, c.isDigit = true) ∧ decimalValue pre = n := by
  induction fuel generalizing n ds with
  | zero => omega
  | succ fuel ih =>
    have hd := digitChar_isDigit (n % 10) (Nat.mod_lt _ (by decide))
    by_cases h0 : n / 10 = 0
    · refine ⟨[Nat.digitChar (n % 10)], ?_, by simp, ?_, ?_⟩
      · simp [Nat.toDigitsCore, h0]
      · simpa using hd.1
      · simp only [decimalValue, List.foldl]
        rw [hd.2]
        omega
    · obtain ⟨pre, hpre, -, hdig, hval⟩ :=
        ih (n / 10) (Nat.digitChar (n % 10) :: ds) (by omega)
      refine ⟨pre ++ [Nat.digitChar (n % 10)], ?_, by simp, ?_, ?_⟩
      · simp [Nat.toDigitsCore, h0, hpre]
      · intro c hc
        rcases List.mem_append.1 hc with hc | hc
        · exact hdig c hc
        · simp at hc; subst hc; exact hd.1
      · rw [decimalValue_append_singleton, hval, hd.2]; omega

theorem repr_spec (n : Nat) :
    (Nat.repr n).data ≠ [] ∧ (∀ c ∈ (Nat.repr n).data, c.isDigit = true) ∧
      decimalValue (Nat.repr n).data = n := by
  obtain ⟨pre, hpre, hne, hdig, hval⟩ := toDigitsCore_spec (n + 1) n [] (by omega)
  have : (Nat.repr n).data = pre := by
    simp [Nat.repr, Nat.toDigits, hpre, List.asString]
  rw [this]
  exact ⟨hne, hdig, hval⟩

theorem parseInt_formatInt (t : Int) : parseInt (formatInt t).data = t := by
  cases t with
  | ofNat m =>
    obtain ⟨hne, hdig, hval⟩ := repr_spec m
    simp only [formatInt]
    cases hd : (Nat.repr m).data with
    | nil => exact absurd hd hne
    | cons c cs =>
      have hc : c ≠ '-' := by
        intro hc
        have := hdig c (by rw [hd]; simp)
        rw [hc] at this
        exact absurd this (by decide)
      rw [hd] at hval
      unfold parseInt
      split
      · rename_i heq
        simp at heq
        exact absurd heq.1 hc
      · simp [hval]
  | negSucc m =>
    obtain ⟨-, -, hval⟩ := repr_spec (m + 1)
    have : (formatInt (Int.negSucc m)).data = '-' :: (Nat.repr (m + 1)).data := by
      simp [formatInt, String.data_append]
    rw [this]
    simp only [parseInt, hval]
    rfl

theorem formatInt_injective (t1 t2 : Int) (h : formatInt t1 = formatInt t2) : t1 = t2 := by
  rw [← parseInt_formatInt t1, ← parseInt_formatInt t2, h]

theorem formatInt_no_newline (t : Int) : '\n' ∉ (formatInt t).data := by
  cases t with
  | ofNat m =>
    intro hmem
    have := (repr_spec m).2.1 _ hmem
    exact absurd this (by decide)
  | negSucc m =>
    have : (formatInt (Int.negSucc m)).data = '-' :: (Nat.repr (m + 1)).data := by
      simp [formatInt, String.data_append]
    rw [this]
    intro hmem
    rcases List.mem_cons.1 hmem with h | h
    · exact absurd h (by decide)
    · exact absurd ((repr_spec (m + 1)).2.1 _ h) (by decide)

theorem split_at_separator {α : Type} (x : α) (a a' b b' : List α)
    (ha : x ∉ a) (ha' : x ∉ a') (h : a ++ x :: b = a' ++ x :: b') : a = a' ∧ b = b' := by
  induction a generalizing a' with
  | nil =>
    cases a' with
    | nil => simpa using h
    | cons y ys =>
      simp at h
      exact absurd (by simp [h.1]) ha'
  | cons z zs ih =>
    cases a' with
    | nil =>
      simp at h
      exact absurd (by simp [h.1]) ha
    | cons y ys =>
      simp at h
      obtain ⟨h1, h2⟩ := ih ys (fun hm => ha (List.mem_cons_of_mem _ hm))
        (fun hm => ha' (List.mem_cons_of_mem _ hm)) h.2
      exact ⟨by rw [h.1, h1], h2⟩

theorem stringToSign_injective (s1 s2 : String) (t1 t2 : Int)
    (h : stringToSign s1 t1 = stringToSign s2 t2) : s1 = s2 ∧ t1 = t2 := by
  have hd : (formatInt t1).data ++ '\n' :: s1.data = (formatInt t2).data ++ '\n' :: s2.data := by
    have := congrArg String.data h
    simpa [stringToSign, String.data_append] using this
  obtain ⟨h1, h2⟩ := split_at_separator _ _ _ _ _ (formatInt_no_newline t1)
    (formatInt_no_newline t2) hd
  exact ⟨String.ext h2, formatInt_injective _ _ (String.ext h1)⟩

/-! ## Lemmas on the dispatcher -/

/-- Every payload `NewMessage` returns carries a nil error. -/
theorem NewMessage_ok_error_nil (app : AppConfig) (conf : deployMessageConf) (clock : Clock)
    (req : FeiShuReq) (err : Option GoError) (clock1 : Clock)
    (h : deployMessageConf.NewMessage app conf clock = .ok ((req, err), clock1)) : err = none := by
  cases hr : newMessageRows app conf with
  | error p => simp [deployMessageConf.NewMessage, hr] at h
  | ok res =>
    simp only [deployMessageConf.NewMessage, hr] at h
    cases h
    rfl

/-! ## The signer: theorems -/

/-- C5: for every secret and every timestamp, `GenSign` returns a nil error and
the standard base64 of HMAC-SHA256 (RFC 2104) over the empty message, keyed by
the decimal timestamp, a newline and the secret. -/
theorem GenSign_is_base64_hmacSha256_of_empty_message (secret : String) (timestamp : Int) :
    GenSign secret timestamp =
      (base64StdEncodeToString
        (hmacSha256 (stringBytes (formatInt timestamp ++ "\n" ++ secret)) []), none) := by
  have h := hmac_object_eq_hmacSha256 (stringBytes (formatInt timestamp ++ "\n" ++ secret)) []
  simp only [Hmac.write] at h
  simp only [GenSign, Hmac.write, h]

/-- C6, as stated, fails: the secrets "a" and "a" followed by a NUL byte differ,
yet under the same timestamp they yield the same signature, because both keys
are zero-padded to the same 64-byte block. -/
theorem GenSign_trailing_nul_same_signature :
    ("a" : String) ≠ "a\x00" ∧ GenSign "a" 1 = GenSign "a\x00" 1 := by
  refine ⟨by decide, ?_⟩
  have h : hmacBlockKey (stringBytes (stringToSign "a" 1))
      = hmacBlockKey (stringBytes (stringToSign "a\x00" 1)) := by decide
  rw [GenSign_eq_of_blockKey, GenSign_eq_of_blockKey, h]

/-- C6, amended: two pairs of secret and timestamp yield the same key string
exactly when they are the same pair, and the signature is determined by the key
brought to the block size, so pairs whose keys agree there sign alike. -/
theorem GenSign_key_injective_signature_by_block_key (s1 s2 : String) (t1 t2 : Int) :
    (stringToSign s1 t1 = stringToSign s2 t2 ↔ (s1 = s2 ∧ t1 = t2)) ∧
    (hmacBlockKey (stringBytes (stringToSign s1 t1))
        = hmacBlockKey (stringBytes (stringToSign s2 t2)) →
      GenSign s1 t1 = GenSign s2 t2) := by
  refine ⟨⟨stringToSign_injective s1 s2 t1 t2, ?_⟩, ?_⟩
  · rintro ⟨rfl, rfl⟩
    rfl
  · intro h
    rw [GenSign_eq_of_blockKey, GenSign_eq_of_blockKey, h]

/-! ## The composer: theorems -/

/-- C10: for every configuration, context and clock, `NewMessage` does not run to
completion: the write `res[4][1]` is out of range of the one-cell row that the
allocation loop made for index 4, and the call panics. -/
theorem NewMessage_index_out_of_range (app : AppConfig) (conf : deployMessageConf)
    (clock : Clock) :
    deployMessageConf.NewMessage app conf clock = .error (.indexOutOfRange 1 1) :=
  NewMessage_error app conf clock

/-- C1: the allocation loop gives the environment row (index 4) one cell and the
deploy-detail row (index 5) two, so on the example context the rows are never
completed: the write of the environment row's link cell is out of range. -/
theorem environment_row_allocated_one_cell :
    (∃ res, allocRows = .ok res ∧ res.map List.length = [1, 1, 1, 1, 1, 2, 1]) ∧
    newMessageRows exampleApp exampleConf = .error (.indexOutOfRange 1 1) :=
  ⟨⟨_, rfl, rfl⟩, rfl⟩

/-- C2: on the end-to-end example of the specification `NewMessage` returns no
body of seven rows: it panics with an index out of range. -/
theorem NewMessage_example_returns_no_body :
    deployMessageConf.NewMessage exampleApp exampleConf tickingClock
        = .error (.indexOutOfRange 1 1) ∧
    ∀ req err clock, deployMessageConf.NewMessage exampleApp exampleConf tickingClock
        ≠ .ok ((req, err), clock) := by
  refine ⟨rfl, ?_⟩
  intro req err clock h
  rw [NewMessage_error] at h
  cases h

/-- C3: with a commit version and without one, `NewMessage` panics before the
append of line 238 is reached, so no row 2 is returned in either case. -/
theorem NewMessage_version_row_not_returned :
    deployMessageConf.NewMessage exampleApp exampleConfVersion tickingClock
        = .error (.indexOutOfRange 1 1) ∧
    deployMessageConf.NewMessage exampleApp exampleConf tickingClock
        = .error (.indexOutOfRange 1 1) ∧
    exampleConfVersion.apply.CommitVersion = "9f2c1ab" ∧
    exampleConf.apply.CommitVersion = "" :=
  ⟨rfl, rfl, rfl, rfl⟩

/-- C4: for a successful and for a failed deployment the header is given the
title of `statusMap`, and `NewMessage` then panics instead of returning the
payload. -/
theorem NewMessage_title_set_then_panic :
    (newMessageHeader exampleApp exampleConf tickingClock).1.Title = "部署成功" ∧
    (newMessageHeader exampleApp exampleConfFailure tickingClock).1.Title = "部署失败" ∧
    deployMessageConf.NewMessage exampleApp exampleConf tickingClock
        = .error (.indexOutOfRange 1 1) ∧
    deployMessageConf.NewMessage exampleApp exampleConfFailure tickingClock
        = .error (.indexOutOfRange 1 1) :=
  ⟨by decide, by decide, rfl, rfl⟩

/-- C7: when the clock advances between the two reads of `NewMessage`, the
timestamp sent is the first reading and the signature is computed over the
second, which is a different signature. -/
theorem NewMessage_signs_second_clock_reading :
    (newMessageHeader exampleApp exampleConf tickingClock).1.Timestamp = "1699999999" ∧
    (newMessageHeader exampleApp exampleConf tickingClock).1.Sign
      = (GenSign "mysecret" 1700000000).1 ∧
    (GenSign "mysecret" 1700000000).1 ≠ (GenSign "mysecret" 1699999999).1 :=
  ⟨by decide, rfl, by decide!⟩

/-- C9, as stated, fails: for status 2 no error is returned and the title
assigned is the empty string. -/
theorem unknown_status_neither_rejected_nor_defaulted :
    exampleConfUnknown.msg.Status ≠ 1 ∧ exampleConfUnknown.msg.Status ≠ 0 ∧
    ¬ ((∃ req err clock,
          deployMessageConf.NewMessage exampleApp exampleConfUnknown tickingClock
              = .ok ((req, some err), clock)) ∨
       (newMessageHeader exampleApp exampleConfUnknown tickingClock).1.Title ≠ "") := by
  refine ⟨by decide, by decide, ?_⟩
  rintro (⟨req, err, clock, h⟩ | h)
  · have := NewMessage_ok_error_nil _ _ _ _ _ _ h
    cases this
  · exact h (by decide)

/-- C9, amended: for a status that is neither 1 nor 0 the title `NewMessage`
assigns is the empty string, the zero value of the map lookup, and
`NewMessage` returns no error. -/
theorem unknown_status_title_empty (app : AppConfig) (conf : deployMessageConf)
    (clock : Clock) (h1 : conf.msg.Status ≠ 1) (h0 : conf.msg.Status ≠ 0) :
    (newMessageHeader app conf clock).1.Title = "" ∧
    ∀ req err clock1, deployMessageConf.NewMessage app conf clock
        ≠ .ok ((req, some err), clock1) := by
  refine ⟨?_, ?_⟩
  · rw [newMessageHeader_title]
    have e1 : (conf.msg.Status == 1) = false := by simpa using h1
    have e0 : (conf.msg.Status == 0) = false := by simpa using h0
    simp [mapIndex, statusMap, List.lookup, e1, e0]
  · intro req err clock1 h
    have := NewMessage_ok_error_nil _ _ _ _ _ _ h
    cases this

/-- The amended C9 at status 2: the hypotheses hold there and the title is empty. -/
theorem unknown_status_title_empty_witness :
    exampleConfUnknown.msg.Status ≠ 1 ∧ exampleConfUnknown.msg.Status ≠ 0 ∧
    (newMessageHeader exampleApp exampleConfUnknown tickingClock).1.Title = "" :=
  ⟨by decide, by decide,
    (unknown_status_title_empty exampleApp exampleConfUnknown tickingClock
      (by decide) (by decide)).1⟩

/-! ## The dispatcher: theorems -/

/-- C8: when a lookup of `sendToFeishu` fails, nothing of the payload is built,
no HTTP request is built or sent, every lookup before the failed one succeeded,
and after it nothing happens but the logging of the error. -/
theorem sendToFeishu_stops_at_failed_lookup (w : World) (msg : deployMessage) (l : Lookup)
    (h : Event.lookup l true ∈ sendToFeishu w msg) :
    (∀ e ∈ sendToFeishu w msg, e.isBuild = false ∧ e.isHttp = false) ∧
    ∃ pre post, sendToFeishu w msg = pre ++ Event.lookup l true :: post ∧
      (∀ e ∈ pre, ∃ l1, e = Event.lookup l1 false) ∧
      (∀ e ∈ post, ∃ err, e = Event.logPrint err) := by
  unfold sendToFeishu at h ⊢
  cases h1 : w.applyDetail msg.ApplyId with
  | error e1 =>
    simp only [h1] at h ⊢
    simp at h
    subst h
    exact ⟨by simp [Event.isBuild, Event.isHttp], [], [], by simp⟩
  | ok apply =>
    simp only [h1] at h ⊢
    cases h2 : w.projectDetail apply.ProjectId with
    | error e2 =>
      simp only [h2] at h ⊢
      simp at h
      subst h
      exact ⟨by simp [Event.isBuild, Event.isHttp], [.lookup .applyDetail false], [], by simp⟩
    | ok project =>
      simp only [h2] at h ⊢
      cases h3 : w.groupGetMapByIds project.OnlineCluster with
      | error e3 =>
        simp only [h3] at h ⊢
        simp at h
        subst h
        exact ⟨by simp [Event.isBuild, Event.isHttp],
          [.lookup .applyDetail false, .lookup .projectDetail false], [.logPrint e3], by simp⟩
      | ok groupMap =>
        simp only [h3] at h ⊢
        cases h4 : w.serverGetListByGroupIds project.OnlineCluster with
        | error e4 =>
          simp only [h4] at h ⊢
          simp at h
          subst h
          exact ⟨by simp [Event.isBuild, Event.isHttp],
            [.lookup .applyDetail false, .lookup .projectDetail false,
              .lookup .groupGetMapByIds false], [], by simp⟩
        | ok serverList =>
          simp only [h4] at h ⊢
          cases h5 : w.userDetail apply.UserId with
          | error e5 =>
            simp only [h5] at h ⊢
            simp at h
            subst h
            exact ⟨by simp [Event.isBuild, Event.isHttp],
              [.lookup .applyDetail false, .lookup .projectDetail false,
                .lookup .groupGetMapByIds false, .lookup .serverGetListByGroupIds false],
              [], by simp⟩
          | ok u =>
            exfalso
            simp only [h5] at h
            revert h
            repeat' split
            all_goals simp

/-- The theorem of C8 in a world whose project lookup fails: the failed lookup is
performed and neither a payload nor a request follows. -/
theorem sendToFeishu_stops_at_failed_lookup_witness :
    Event.lookup .projectDetail true ∈ sendToFeishu projectFailsWorld exampleConf.msg ∧
    (∀ e ∈ sendToFeishu projectFailsWorld exampleConf.msg,
      e.isBuild = false ∧ e.isHttp = false) :=
  ⟨by decide,
    (sendToFeishu_stops_at_failed_lookup projectFailsWorld exampleConf.msg .projectDetail
      (by decide)).1⟩

/-! ## Further properties -/

/-- The title assigned by the header: the success label for status 1, the failure
label for status 0, for every configuration, context and clock. -/
theorem header_title_by_status (app : AppConfig) (conf : deployMessageConf) (clock : Clock) :
    (conf.msg.Status = 1 → (newMessageHeader app conf clock).1.Title = "部署成功") ∧
    (conf.msg.Status = 0 → (newMessageHeader app conf clock).1.Title = "部署失败") := by
  refine ⟨fun h => ?_, fun h => ?_⟩
  · rw [newMessageHeader_title, h]; rfl
  · rw [newMessageHeader_title, h]; rfl

/-- The header reads the clock twice: the timestamp field renders the first
reading, the signature is `GenSign` of the configured secret and the second
reading, and the clock has then been read two more times. -/
theorem header_reads_clock_twice (app : AppConfig) (conf : deployMessageConf) (clock : Clock) :
    (newMessageHeader app conf clock).1.Timestamp = formatInt (clock.readings clock.reads) ∧
    (newMessageHeader app conf clock).1.Sign
      = (GenSign app.FeishuSign (clock.readings (clock.reads + 1))).1 ∧
    (newMessageHeader app conf clock).2.reads = clock.reads + 2 :=
  ⟨rfl, rfl, rfl⟩

/-- A reference vector of the signer: secret "mysecret", timestamp 1700000000. -/
theorem GenSign_reference_vector :
    GenSign "mysecret" 1700000000 = ("Jp33/xXhCipDEpjyHvEyc7mRSyXWHbNz6J8+C3qQKNo=", none) := by
  decide!

/-- In every world and for every event `sendToFeishu` builds and sends no HTTP
request: when all five lookups succeed the call of `NewMessage` panics. -/
theorem sendToFeishu_never_sends (w : World) (msg : deployMessage) :
    ∀ e ∈ sendToFeishu w msg, e.isHttp = false := by
  unfold sendToFeishu
  simp only [NewMessage_error]
  repeat' split
  all_goals simp [Event.isHttp]

end Feishu
